import Mathlib

/-!
Verification of the `testdb` package (src/testdb.go): a test double for a
`database/sql/driver`.  The embedding below translates, function by function,
the Go source: query normalization and SHA-1 hashing (`Conn.getQueryHash`),
the stub registry (`Conn.StubQuery`, `Conn.StubQueryError`, `Conn.Prepare`),
statements (`Stmt.Query`), the row source (`Rows.Next`, `Rows.Columns`,
`Rows.Close`, `Rows.Err`) and the CSV-to-rows converter
(`RowsFromCSVString`, `timeRegex`, `time.Parse` of the fixed layout
"2006-01-02 15:04:05").  Machine integers are modeled as `Nat` reduced
modulo 2^32 where the Go code relies on 32-bit wraparound (SHA-1).
-/

set_option linter.unusedVariables false

namespace Testdb

/-- The character class matched by Go's RE2 `\s`, used by
`whitespaceRegexp = regexp.MustCompile("\\s")` (testdb.go:53).
RE2's Perl class `\s` is exactly `[\t\n\f\r ]` (it does not include
vertical tab or Unicode spaces). -/
def isGoRegexpSpace (c : Char) : Bool :=
  c == '\t' || c == '\n' || c == Char.ofNat 12 || c == '\r' || c == ' '

/-- The character class of `unicode.IsSpace`, used by `strings.TrimSpace`
(testdb.go:192, 205): Unicode White_Space code points. -/
def isUnicodeSpace (c : Char) : Bool :=
  (9 ≤ c.toNat && c.toNat ≤ 13) || c.toNat == 32 || c.toNat == 0x85 ||
  c.toNat == 0xA0 || c.toNat == 0x1680 ||
  (0x2000 ≤ c.toNat && c.toNat ≤ 0x200A) || c.toNat == 0x2028 ||
  c.toNat == 0x2029 || c.toNat == 0x202F || c.toNat == 0x205F ||
  c.toNat == 0x3000

/-- `strings.TrimSpace`: drop leading and trailing Unicode white space. -/
def goTrimSpace (s : String) : String :=
  ⟨((s.data.dropWhile isUnicodeSpace).reverse.dropWhile isUnicodeSpace).reverse⟩

/-- `strings.ToLower` per character, in the ASCII range it maps
(Go: `if 'A' <= c && c <= 'Z' { c += 'a' - 'A' }`).  The Go source
lowercases SQL query text (testdb.go:61); the simple Unicode case mapping
agrees with this on ASCII, which is where SQL keywords and identifiers
live. -/
def goToLower (c : Char) : Char :=
  if 65 ≤ c.toNat ∧ c.toNat ≤ 90 then Char.ofNat (c.toNat + 32) else c

/-- `whitespaceRegexp.ReplaceAllString(query, "")` (testdb.go:61): delete
every `\s` character, anywhere in the string. -/
def removeWhitespace (s : String) : String :=
  ⟨s.data.filter (fun c => !isGoRegexpSpace c)⟩

/-- `strings.ToLower` applied to a whole string. -/
def goToLowerStr (s : String) : String :=
  ⟨s.data.map goToLower⟩

/-- The canonical query string computed at testdb.go:61:
`strings.ToLower(whitespaceRegexp.ReplaceAllString(query, ""))`. -/
def normalizeQuery (query : String) : String :=
  goToLowerStr (removeWhitespace query)

/-! ### SHA-1 (crypto/sha1), used by `Conn.getQueryHash` (testdb.go:63-66) -/

/-- Truncate to a 32-bit word. -/
def w32 (x : Nat) : Nat := x % 4294967296

/-- 32-bit left rotation (operand assumed `< 2^32`). -/
def rotl (n x : Nat) : Nat := w32 ((x <<< n) ||| (x >>> (32 - n)))

/-- UTF-8 encoding of one character; `io.WriteString` feeds the hash the
UTF-8 bytes of the canonical query (testdb.go:64). -/
def utf8Encode (c : Char) : List Nat :=
  let n := c.toNat
  if n < 0x80 then [n]
  else if n < 0x800 then [0xC0 ||| (n >>> 6), 0x80 ||| (n &&& 0x3F)]
  else if n < 0x10000 then
    [0xE0 ||| (n >>> 12), 0x80 ||| ((n >>> 6) &&& 0x3F), 0x80 ||| (n &&& 0x3F)]
  else
    [0xF0 ||| (n >>> 18), 0x80 ||| ((n >>> 12) &&& 0x3F),
     0x80 ||| ((n >>> 6) &&& 0x3F), 0x80 ||| (n &&& 0x3F)]

/-- The UTF-8 bytes of a string. -/
def strBytes (s : String) : List Nat :=
  (s.data.map utf8Encode).flatten

/-- Big-endian 8-byte encoding of the message bit length. -/
def lenBytes (bitLen : Nat) : List Nat :=
  [(bitLen >>> 56) &&& 255, (bitLen >>> 48) &&& 255, (bitLen >>> 40) &&& 255,
   (bitLen >>> 32) &&& 255, (bitLen >>> 24) &&& 255, (bitLen >>> 16) &&& 255,
   (bitLen >>> 8) &&& 255, bitLen &&& 255]

/-- SHA-1 padding: 0x80, zeros to 56 mod 64, then the 64-bit bit length. -/
def sha1Pad (msg : List Nat) : List Nat :=
  msg ++ 0x80 :: List.replicate ((119 - msg.length % 64) % 64) 0 ++
    lenBytes (msg.length * 8)

/-- Big-endian packing of bytes into 32-bit words. -/
def bytesToWords : List Nat → List Nat
  | b0 :: b1 :: b2 :: b3 :: rest =>
      ((b0 <<< 24) ||| (b1 <<< 16) ||| (b2 <<< 8) ||| b3) :: bytesToWords rest
  | _ => []

/-- Split a word list into 16-word blocks (the fuel argument bounds the
number of blocks; callers pass the list length, which always suffices). -/
def chunksLoop : Nat → List Nat → List (List Nat)
  | 0, _ => []
  | _ + 1, [] => []
  | fuel + 1, ws => ws.take 16 :: chunksLoop fuel (ws.drop 16)

/-- Message-schedule extension: append `w[i] = rotl1 (w[i-3] ^ w[i-8] ^
w[i-14] ^ w[i-16])` the given number of times. -/
def extendLoop : Nat → List Nat → List Nat
  | 0, w => w
  | k + 1, w =>
    let i := w.length
    extendLoop k (w ++ [rotl 1 ((w.getD (i - 3) 0) ^^^ (w.getD (i - 8) 0) ^^^
      (w.getD (i - 14) 0) ^^^ (w.getD (i - 16) 0))])

/-- The SHA-1 round function for round `i`. -/
def sha1F (i b c d : Nat) : Nat :=
  if i < 20 then (b &&& c) ||| ((b ^^^ 4294967295) &&& d)
  else if i < 40 then b ^^^ c ^^^ d
  else if i < 60 then (b &&& c) ||| (b &&& d) ||| (c &&& d)
  else b ^^^ c ^^^ d

/-- The SHA-1 round constant for round `i`. -/
def sha1K (i : Nat) : Nat :=
  if i < 20 then 0x5A827999
  else if i < 40 then 0x6ED9EBA1
  else if i < 60 then 0x8F1BBCDC
  else 0xCA62C1D6

/-- The 80 compression rounds over the indexed message schedule. -/
def sha1Rounds : List (Nat × Nat) → Nat × Nat × Nat × Nat × Nat →
    Nat × Nat × Nat × Nat × Nat
  | [], s => s
  | (i, wi) :: rest, (a, b, c, d, e) =>
    sha1Rounds rest
      (w32 (rotl 5 a + sha1F i b c d + e + sha1K i + wi), a, rotl 30 b, c, d)

/-- Process one 512-bit block, updating the five-word state. -/
def sha1Block (h : List Nat) (block : List Nat) : List Nat :=
  let w := extendLoop 64 block
  let (a, b, c, d, e) := sha1Rounds w.enum
    (h.getD 0 0, h.getD 1 0, h.getD 2 0, h.getD 3 0, h.getD 4 0)
  [w32 (h.getD 0 0 + a), w32 (h.getD 1 0 + b), w32 (h.getD 2 0 + c),
   w32 (h.getD 3 0 + d), w32 (h.getD 4 0 + e)]

/-- `sha1.New` / `Sum`: the 20 digest bytes of a byte message. -/
def sha1Bytes (msg : List Nat) : List Nat :=
  let ws := bytesToWords (sha1Pad msg)
  let h := (chunksLoop ws.length ws).foldl sha1Block
    [0x67452301, 0xEFCDAB89, 0x98BADCFE, 0x10325476, 0xC3D2E1F0]
  h.foldr (fun w acc =>
    ((w >>> 24) &&& 255) :: ((w >>> 16) &&& 255) :: ((w >>> 8) &&& 255) ::
      (w &&& 255) :: acc) []

/-- `Conn.getQueryHash` (testdb.go:59-67): remove all whitespace, lowercase,
then SHA-1.  Go returns the digest bytes as a `string` used as a map key;
the byte list is that key. -/
def getQueryHash (query : String) : List Nat :=
  sha1Bytes (strBytes (normalizeQuery query))

/-! ### Errors, time values, driver values -/

/-- Go `error` values that occur in this program: `io.EOF` (testdb.go:157),
`errors.New` strings (testdb.go:98), and arbitrary caller-supplied error
values registered with `StubQueryError` (modeled with an identity tag so
that distinct caller errors stay distinct). -/
inductive GoError where
  | eof
  | errorString (msg : String)
  | custom (id : Nat) (msg : String)
deriving DecidableEq, Repr

/-- A `time.Time` as far as this program can observe one: the civil
date/time produced by `time.Parse("2006-01-02 15:04:05", v)` (testdb.go:208),
always in UTC. -/
structure GoTime where
  year : Nat
  month : Nat
  day : Nat
  hour : Nat
  minute : Nat
  second : Nat
deriving DecidableEq, Repr

/-- The zero `time.Time`: January 1, year 1, 00:00:00 UTC.  This is what
`t` holds when `time.Parse` fails and its error is discarded
(`t, _ := time.Parse(...)`, testdb.go:208). -/
def zeroTime : GoTime := ⟨1, 1, 1, 0, 0, 0⟩

/-- A `driver.Value` as produced by this program: `nil` (the zero value of
slots allocated by `make([]driver.Value, len(columns))`, testdb.go:202),
a string cell, or a `time.Time` cell. -/
inductive Value where
  | null
  | str (s : String)
  | time (t : GoTime)
deriving DecidableEq, Repr

/-! ### Rows (testdb.go:145-177) -/

/-- `type Rows struct` (testdb.go:145-150).  `pos` is the cursor, starting
at the zero value 0. -/
structure Rows where
  closed : Bool
  columns : List String
  rows : List (List Value)
  pos : Nat
deriving DecidableEq, Repr

/-- Embeds the loop `for i, col := range row { dest[i] = col }`
(testdb.go:160-162): cell `i` of the row overwrites slot `i` of the
destination buffer, in order; slots past the row keep their old contents.
(Go panics when the row is longer than `dest`; the driver contract fixes
`dest` to the column count, so that case is out of contract.) -/
def copyCells : List Value → List Value → List Value
  | d :: ds, c :: cs => c :: copyCells ds cs
  | dest, [] => dest
  | [], _ :: _ => []

/-- `Rows.Next` (testdb.go:152-165): increment the cursor; past the last
row, set `closed` and return `io.EOF`; otherwise copy the row at the new
cursor position into `dest` and return nil.  The result is the updated
receiver, the updated destination buffer, and the returned error. -/
def Rows.next (rs : Rows) (dest : List Value) :
    Rows × List Value × Option GoError :=
  let pos := rs.pos + 1
  if pos > rs.rows.length then
    ({ rs with pos := pos, closed := true }, dest, some .eof)
  else
    ({ rs with pos := pos }, copyCells dest (rs.rows.getD (pos - 1) []), none)

/-- `Rows.Err` (testdb.go:167-169): always nil, no state change. -/
def Rows.errCall (rs : Rows) : Rows × Option GoError := (rs, none)

/-- `Rows.Columns` (testdb.go:171-173): returns the stored column list,
no state change. -/
def Rows.columnsCall (rs : Rows) : Rows × List String := (rs, rs.columns)

/-- `Rows.Close` (testdb.go:175-177): always nil, no state change. -/
def Rows.closeCall (rs : Rows) : Rows × Option GoError := (rs, none)

/-- `n` consecutive calls to `Next`, threading the receiver and the
destination buffer and keeping the last call's returned error. -/
def runNexts : Rows × List Value × Option GoError → Nat →
    Rows × List Value × Option GoError
  | s, 0 => s
  | (rs, dest, _), n + 1 => runNexts (rs.next dest) n

/-- The operations a consumer can perform on a `Rows` value. -/
inductive RowsOp where
  | nextOp (dest : List Value)
  | columnsOp
  | closeOp
  | errOp
deriving Repr

/-- The state reached after one operation (`Columns`, `Close` and `Err`
return values but leave the receiver unchanged; `Next` advances it). -/
def applyRowsOp (rs : Rows) : RowsOp → Rows
  | .nextOp dest => (rs.next dest).1
  | .columnsOp => (rs.columnsCall).1
  | .closeOp => (rs.closeCall).1
  | .errOp => (rs.errCall).1

/-! ### Statements, registry and connection (testdb.go:42-132, 179-182) -/

/-- `type Stmt struct` (testdb.go:113-116). -/
structure Stmt where
  result : Option Rows
  err : Option GoError
deriving DecidableEq, Repr

/-- `Stmt.Query` (testdb.go:130-132): returns the wrapped pair, ignoring
the bound arguments. -/
def Stmt.query (s : Stmt) (args : List Value) : Option Rows × Option GoError :=
  (s.result, s.err)

/-- `type Query struct` (testdb.go:179-182): a registered outcome. -/
structure Query where
  result : Option Rows
  err : Option GoError
deriving DecidableEq, Repr

/-- `type Conn struct` (testdb.go:42-45).  The Go map `map[string]Query`
keyed by digest strings is modeled as an association list keyed by digest
byte lists, with overwrite-on-insert semantics. -/
structure Conn where
  queries : List (List Nat × Query)
  queryFunc : Option (String → Option Rows × Option GoError)

/-- `NewConn` (testdb.go:47-51): empty registry, nil override. -/
def newConn : Conn := ⟨[], none⟩

/-- Go map assignment `m[k] = v`: replace the entry for `k` if present,
otherwise append it. -/
def mapInsert (k : List Nat) (v : Query) :
    List (List Nat × Query) → List (List Nat × Query)
  | [] => [(k, v)]
  | (k', v') :: rest =>
    if k' = k then (k, v) :: rest else (k', v') :: mapInsert k v rest

/-- Go map lookup `m[k]` with its `ok` flag. -/
def mapLookup (k : List Nat) : List (List Nat × Query) → Option Query
  | [] => none
  | (k', v) :: rest => if k' = k then some v else mapLookup k rest

/-- `Conn.SetQueryFunc` (testdb.go:55-57) with a non-nil callback. -/
def Conn.setQueryFunc (c : Conn)
    (f : String → Option Rows × Option GoError) : Conn :=
  { c with queryFunc := some f }

/-- `Conn.StubQuery` (testdb.go:69-73): store `Query{result: result}`
(the `err` field is left at its zero value nil) under the query hash. -/
def Conn.stubQuery (c : Conn) (query : String) (result : Rows) : Conn :=
  { c with queries := mapInsert (getQueryHash query) ⟨some result, none⟩ c.queries }

/-- `Conn.StubQueryError` (testdb.go:75-79): store `Query{err: err}`
(the `result` field is left at its zero value nil) under the query hash. -/
def Conn.stubQueryError (c : Conn) (query : String) (err : GoError) : Conn :=
  { c with queries := mapInsert (getQueryHash query) ⟨none, some err⟩ c.queries }

/-- `Conn.Prepare` (testdb.go:81-99).  Go always returns a non-nil `*Stmt`;
the second component is Prepare's own error return. -/
def Conn.prepare (c : Conn) (query : String) : Stmt × Option GoError :=
  match c.queryFunc with
  | some f =>
    let r := f query
    ({ result := r.1, err := r.2 }, none)
  | none =>
    match mapLookup (getQueryHash query) c.queries with
    | some q => ({ result := q.result, err := q.err }, none)
    | none =>
      ({ result := none, err := none },
       some (.errorString ("Query not stubbed: " ++ query)))

/-- A registration call on a connection: `StubQuery` or `StubQueryError`. -/
inductive StubOp where
  | result (q : String) (rows : Rows)
  | failure (q : String) (e : GoError)
deriving Repr

/-- The query text a registration was made for. -/
def StubOp.queryText : StubOp → String
  | .result q _ => q
  | .failure q _ => q

/-- Apply one registration call. -/
def applyStubOp (c : Conn) : StubOp → Conn
  | .result q r => c.stubQuery q r
  | .failure q e => c.stubQueryError q e

/-- The `Query` record a registration stores (testdb.go:69-79). -/
def stubOutcome : StubOp → Query
  | .result _ r => ⟨some r, none⟩
  | .failure _ e => ⟨none, some e⟩

/-! ### encoding/csv with default settings, as used at testdb.go:192-200

`csv.NewReader` is used with its defaults: comma separator, no comment
character, `FieldsPerRecord = 0` (the first record fixes the expected field
count; later records of a different length are an error), `LazyQuotes =
false`, `TrimLeadingSpace = false`.  The reader operates on bytes; the
inputs of interest are modeled at character level, which agrees byte for
byte on the ASCII separators `,`, `"`, `\r`, `\n` the parser dispatches on. -/

/-- `csv.Reader.readLine`: take the input through the first `\n`
(`bufio.ReadSlice`); at end of input without a newline, drop one trailing
`\r`; normalize a trailing `\r\n` to `\n`.  Returns the line and the
remaining input, or none at end of input. -/
def readLine (input : List Char) : Option (List Char × List Char) :=
  match input with
  | [] => none
  | _ :: _ =>
    if h : '\n' ∈ input then
      let i := input.indexOf '\n'
      let raw := input.take (i + 1)
      let line :=
        match raw.reverse with
        | '\n' :: '\r' :: t => ('\n' :: t).reverse
        | _ => raw
      some (line, input.drop (i + 1))
    else
      match input.reverse with
      | '\r' :: t => some (t.reverse, [])
      | _ => some (input, [])

/-- The line-skipping loop at the top of `csv.Reader.readRecord`: skip
lines that are empty up to their newline (`len(line) == lengthNL(line)`),
i.e. lines equal to "" or "\n".  The fuel bounds the number of skipped
lines; callers pass `input.length + 1`, which suffices because every
`readLine` consumes at least one character. -/
def readNonBlankLine : Nat → List Char → Option (List Char × List Char)
  | 0, _ => none
  | fuel + 1, input =>
    match readLine input with
    | none => none
    | some (line, rest) =>
      if line = [] ∨ line = ['\n'] then readNonBlankLine fuel rest
      else some (line, rest)

/-- Errors `csv.Reader.Read` can produce here: end of input, a quote error
(`ErrQuote`, including abrupt end of input inside quotes), a bare quote in
a non-quoted field (`ErrBareQuote`), and a field-count mismatch
(`ErrFieldCount`). -/
inductive CSVErr where
  | eof
  | quote
  | bareQuote
  | fieldCount
deriving DecidableEq, Repr

/-- Where the field scanner of `readRecord` stands inside the current
record: at the start of a field, inside a non-quoted field, inside a
quoted field, or just past a closing quote. -/
inductive FieldMode where
  | fieldStart
  | nonq
  | quoted
  | postq
deriving Repr

/-- The `parseField` loop of `csv.Reader.readRecord`, one character at a
time.  `line` is the remainder of the current line, `rest` the input after
it, `fields` the completed fields and `buf` the current field.

Correspondence with the Go branches: a field starting with `"` is quoted;
in a non-quoted field a `,` ends the field, end of line (`\n` or nothing)
ends the record with the trailing newline stripped, and a `"` anywhere is
`ErrBareQuote`; inside quotes a `"` switches to the post-quote state and
any other character (including `\n` of continuation lines pulled in with
`readLine`) is field text, with abrupt end of input giving `ErrQuote`;
after a closing quote a `,` ends the field, end of line ends the record,
`"` appends an escaped quote, and anything else is `ErrQuote`.

The fuel bounds the steps.  Callers pass `line.length + 2*rest.length + 1`:
every step consumes one character of `line`, except refilling the line,
which strictly decreases `line.length + 2*rest.length` because `readLine`
consumes at least one character of `rest` and never lengthens it, so the
fuel is never exhausted. -/
def parseRec : Nat → FieldMode → List Char → List Char → List String →
    List Char → Except CSVErr (List String × List Char)
  | 0, _, _, _, _, _ => .error .eof
  | fuel + 1, .fieldStart, line, rest, fields, _ =>
    match line with
    | [] => .ok (fields ++ [""], rest)
    | '"' :: l => parseRec fuel .quoted l rest fields []
    | ',' :: l => parseRec fuel .fieldStart l rest (fields ++ [""]) []
    | '\n' :: _ => .ok (fields ++ [""], rest)
    | c :: l => parseRec fuel .nonq l rest fields [c]
  | fuel + 1, .nonq, line, rest, fields, buf =>
    match line with
    | [] => .ok (fields ++ [String.mk buf], rest)
    | '\n' :: _ => .ok (fields ++ [String.mk buf], rest)
    | ',' :: l => parseRec fuel .fieldStart l rest (fields ++ [String.mk buf]) []
    | '"' :: _ => .error .bareQuote
    | c :: l => parseRec fuel .nonq l rest fields (buf ++ [c])
  | fuel + 1, .quoted, line, rest, fields, buf =>
    match line with
    | '"' :: l => parseRec fuel .postq l rest fields buf
    | c :: l => parseRec fuel .quoted l rest fields (buf ++ [c])
    | [] =>
      match readLine rest with
      | none => .error .quote
      | some (l', r') => parseRec fuel .quoted l' r' fields buf
  | fuel + 1, .postq, line, rest, fields, buf =>
    match line with
    | [] => .ok (fields ++ [String.mk buf], rest)
    | ',' :: l => parseRec fuel .fieldStart l rest (fields ++ [String.mk buf]) []
    | '"' :: l => parseRec fuel .quoted l rest fields (buf ++ ['"'])
    | '\n' :: l =>
      if l = [] then .ok (fields ++ [String.mk buf], rest) else .error .quote
    | _ :: _ => .error .quote

/-- The state `csv.Reader` keeps between `Read` calls that matters here:
the unread input and the `FieldsPerRecord` expectation (none while still
0, fixed by the first record). -/
structure CSVState where
  input : List Char
  fieldsPerRecord : Option Nat
deriving DecidableEq, Repr

/-- `csv.Reader.Read`: skip blank lines (end of input gives `io.EOF`),
parse one record, then check or set the expected field count. -/
def csvRead (st : CSVState) : Except CSVErr (List String × CSVState) :=
  match readNonBlankLine (st.input.length + 1) st.input with
  | none => .error .eof
  | some (line, rest) =>
    match parseRec (line.length + 2 * rest.length + 1) .fieldStart line rest [] [] with
    | .error e => .error e
    | .ok (fields, rest') =>
      match st.fieldsPerRecord with
      | some n =>
        if fields.length = n then .ok (fields, ⟨rest', some n⟩)
        else .error .fieldCount
      | none => .ok (fields, ⟨rest', some fields.length⟩)

/-! ### Timestamp inference (testdb.go:184, 204-213) -/

/-- `timeRegex = regexp.Compile("^\\d{4}-\\d{2}-\\d{2}(\\s\\d{2}:\\d{2}:\\d{2})?$")`
(testdb.go:184): ten characters `YYYY-MM-DD`, optionally followed by one
`\s` character and eight characters `HH:MM:SS`. -/
def matchesTimeRegex : List Char → Bool
  | [y1, y2, y3, y4, h1, mo1, mo2, h2, d1, d2] =>
    y1.isDigit && y2.isDigit && y3.isDigit && y4.isDigit && h1 == '-' &&
    mo1.isDigit && mo2.isDigit && h2 == '-' && d1.isDigit && d2.isDigit
  | [y1, y2, y3, y4, h1, mo1, mo2, h2, d1, d2, sp, hh1, hh2, c1, mi1, mi2, c2, s1, s2] =>
    y1.isDigit && y2.isDigit && y3.isDigit && y4.isDigit && h1 == '-' &&
    mo1.isDigit && mo2.isDigit && h2 == '-' && d1.isDigit && d2.isDigit &&
    isGoRegexpSpace sp && hh1.isDigit && hh2.isDigit && c1 == ':' &&
    mi1.isDigit && mi2.isDigit && c2 == ':' && s1.isDigit && s2.isDigit
  | _ => false

/-- Numeric value of an ASCII digit. -/
def digitVal (c : Char) : Nat := c.toNat - 48

/-- Gregorian leap year, as `time.isLeap`. -/
def isLeapYear (y : Nat) : Bool :=
  y % 4 == 0 && (y % 100 != 0 || y % 400 == 0)

/-- Days in a month, as `time.daysIn`. -/
def daysInMonth (year month : Nat) : Nat :=
  if month = 2 then (if isLeapYear year then 29 else 28)
  else if month = 4 ∨ month = 6 ∨ month = 9 ∨ month = 11 then 30
  else 31

/-- `time.Parse("2006-01-02 15:04:05", v)`: the value must match the
layout exactly — four year digits, literal `-`, two month digits, literal
`-`, two day digits, a literal space (not any `\s`), and two-digit hour,
minute and second separated by literal `:` — and the fields must be in
range (month 1-12, day 1-daysIn, hour 0-23, minute and second 0-59).
Any other input makes `time.Parse` return an error (and the zero time). -/
def goTimeParse : List Char → Option GoTime
  | [y1, y2, y3, y4, h1, mo1, mo2, h2, d1, d2, sp, hh1, hh2, c1, mi1, mi2, c2, s1, s2] =>
    if y1.isDigit && y2.isDigit && y3.isDigit && y4.isDigit && h1 == '-' &&
       mo1.isDigit && mo2.isDigit && h2 == '-' && d1.isDigit && d2.isDigit &&
       sp == ' ' && hh1.isDigit && hh2.isDigit && c1 == ':' &&
       mi1.isDigit && mi2.isDigit && c2 == ':' && s1.isDigit && s2.isDigit then
      let year := ((digitVal y1 * 10 + digitVal y2) * 10 + digitVal y3) * 10 + digitVal y4
      let month := digitVal mo1 * 10 + digitVal mo2
      let day := digitVal d1 * 10 + digitVal d2
      let hour := digitVal hh1 * 10 + digitVal hh2
      let minute := digitVal mi1 * 10 + digitVal mi2
      let second := digitVal s1 * 10 + digitVal s2
      if 1 ≤ month ∧ month ≤ 12 ∧ 1 ≤ day ∧ day ≤ daysInMonth year month ∧
         hour ≤ 23 ∧ minute ≤ 59 ∧ second ≤ 59 then
        some ⟨year, month, day, hour, minute, second⟩
      else none
    else none
  | _ => none

/-- The per-cell conversion at testdb.go:204-213: trim the cell; if it
matches `timeRegex`, the cell becomes the `time.Parse` result with the
parse error discarded (so the zero time on parse failure); otherwise the
trimmed text. -/
def convertCell (v : String) : Value :=
  let t := goTrimSpace v
  if matchesTimeRegex t.data then
    Value.time ((goTimeParse t.data).getD zeroTime)
  else
    Value.str t

/-- `row := make([]driver.Value, len(columns))` followed by the conversion
loop (testdb.go:202-213): a buffer of `len(columns)` nil values whose
slot `i` receives converted cell `i`.  (Go panics when the record has more
fields than columns; `buildRowChecked` below makes that panic explicit,
and this untracked version is only meaningful for records that fit.) -/
def buildRow (columns : List String) (record : List String) : List Value :=
  copyCells (List.replicate columns.length Value.null) (record.map convertCell)

/-- The read loop of `RowsFromCSVString` (testdb.go:195-216): call `Read`,
stop on any error (or nil record, which `Read` never produces without an
error), otherwise convert and append the row.  The fuel bounds the number
of records; callers pass `input.length + 1`, which suffices because every
successful `Read` consumes at least one input character. -/
def rowsLoop (columns : List String) : Nat → CSVState → List (List Value) →
    List (List Value)
  | 0, _, acc => acc
  | fuel + 1, st, acc =>
    match csvRead st with
    | .error _ => acc
    | .ok (r, st') => rowsLoop columns fuel st' (acc ++ [buildRow columns r])

/-- `RowsFromCSVString` (testdb.go:186-219): trim the whole input, then
feed it through the CSV read loop.  The returned `driver.Rows` carries no
error channel: parse failures only truncate the produced rows. -/
def RowsFromCSVString (columns : List String) (s : String) : Rows :=
  let input := (goTrimSpace s).data
  { closed := false
    columns := columns
    rows := rowsLoop columns (input.length + 1) ⟨input, none⟩ []
    pos := 0 }

/-- The record sequence the CSV scanner yields before its first error,
together with that error: the records `RowsFromCSVString` gets to see. -/
def readRecords : Nat → CSVState → List (List String) × Option CSVErr
  | 0, _ => ([], none)
  | fuel + 1, st =>
    match csvRead st with
    | .error e => ([], some e)
    | .ok (r, st') =>
      let p := readRecords fuel st'
      (r :: p.1, p.2)

/-- The conversion loop with Go's panic made explicit: `make` allocates
`len(columns)` slots, and the write `row[i] = ...` at testdb.go:209/211
panics with an index-out-of-range runtime error as soon as the record has
more cells than columns.  `none` models that panic; otherwise the row is
exactly `buildRow`'s. -/
def buildRowChecked (columns : List String) (record : List String) :
    Option (List Value) :=
  if record.length ≤ columns.length then some (buildRow columns record)
  else none

/-- The read loop of `RowsFromCSVString` (testdb.go:195-216) with the
conversion panic propagated: once building a row panics, the program never
returns, so the whole loop result is `none`. -/
def rowsLoopChecked (columns : List String) : Nat → CSVState →
    List (List Value) → Option (List (List Value))
  | 0, _, acc => some acc
  | fuel + 1, st, acc =>
    match csvRead st with
    | .error _ => some acc
    | .ok (r, st') =>
      match buildRowChecked columns r with
      | none => none
      | some row => rowsLoopChecked columns fuel st' (acc ++ [row])

/-- Panic-aware `RowsFromCSVString`: `some` of the returned row source
when every parsed record fits within the declared columns, `none` when the
conversion loop panics and the function never returns. -/
def RowsFromCSVStringChecked (columns : List String) (s : String) :
    Option Rows :=
  let input := (goTrimSpace s).data
  (rowsLoopChecked columns (input.length + 1) ⟨input, none⟩ []).map
    (fun rows => ⟨false, columns, rows, 0⟩)

/-- `WsCaseVariant base var` : `var` is obtained from `base` by inserting
or removing `\s` whitespace characters anywhere and/or changing the letter
case of characters (replacing a character by one with the same lowercase
image). -/
inductive WsCaseVariant : List Char → List Char → Prop where
  | nil : WsCaseVariant [] []
  | cons {c c' : Char} {l l' : List Char} : goToLower c = goToLower c' →
      WsCaseVariant l l' → WsCaseVariant (c :: l) (c' :: l')
  | dropWs {c : Char} {l l' : List Char} : isGoRegexpSpace c = true →
      WsCaseVariant l l' → WsCaseVariant (c :: l) l'
  | insWs {c : Char} {l l' : List Char} : isGoRegexpSpace c = true →
      WsCaseVariant l l' → WsCaseVariant l (c :: l')

/-! ### Registry lemmas -/

theorem mapLookup_insert_self (k : List Nat) (v : Query)
    (m : List (List Nat × Query)) : mapLookup k (mapInsert k v m) = some v := by
  induction m with
  | nil => simp [mapInsert, mapLookup]
  | cons kv rest ih =>
    obtain ⟨k', v'⟩ := kv
    by_cases h : k' = k <;> simp [mapInsert, mapLookup, h, ih]

theorem mapLookup_insert_ne (k k' : List Nat) (v : Query)
    (m : List (List Nat × Query)) (h : k' ≠ k) :
    mapLookup k (mapInsert k' v m) = mapLookup k m := by
  induction m with
  | nil => simp [mapInsert, mapLookup, h]
  | cons kv rest ih =>
    obtain ⟨k'', v''⟩ := kv
    by_cases h2 : k'' = k' <;> simp [mapInsert, mapLookup, h, h2, ih]

theorem queryFunc_applyStubOp (c : Conn) (op : StubOp) :
    (applyStubOp c op).queryFunc = c.queryFunc := by
  cases op <;> rfl

theorem queries_applyStubOp (c : Conn) (op : StubOp) :
    (applyStubOp c op).queries
      = mapInsert (getQueryHash op.queryText) (stubOutcome op) c.queries := by
  cases op <;> rfl

theorem queryFunc_foldl_stubOps (ops : List StubOp) (c : Conn) :
    (ops.foldl applyStubOp c).queryFunc = c.queryFunc := by
  induction ops generalizing c with
  | nil => rfl
  | cons op rest ih => rw [List.foldl_cons, ih, queryFunc_applyStubOp]

theorem mapLookup_foldl_stubOps (ops : List StubOp) (c : Conn) (k : List Nat)
    (h : ∀ op ∈ ops, getQueryHash op.queryText ≠ k) :
    mapLookup k (ops.foldl applyStubOp c).queries = mapLookup k c.queries := by
  induction ops generalizing c with
  | nil => rfl
  | cons op rest ih =>
    rw [List.foldl_cons, ih _ (fun o ho => h o (List.mem_cons_of_mem _ ho)),
      queries_applyStubOp,
      mapLookup_insert_ne _ _ _ _ (h op (List.mem_cons_self _ _))]

/-! ### Claim theorems: registry and connection shell -/

/-- Claim C4: with an override callback installed via `SetQueryFunc`,
every `Prepare(query)` invokes the callback on the raw query text and
wraps exactly its `(RowSource, error)` pair in a `Stmt` with a nil
`Prepare` error, bypassing the registry — also when a matching registry
entry for that very query exists (second conjunct). -/
theorem prepare_override_precedence (c : Conn)
    (f : String → Option Rows × Option GoError) (q : String) (res : Rows) :
    Conn.prepare (Conn.setQueryFunc c f) q
      = ({ result := (f q).1, err := (f q).2 }, none)
    ∧ Conn.prepare (Conn.setQueryFunc (Conn.stubQuery c q res) f) q
      = ({ result := (f q).1, err := (f q).2 }, none) :=
  ⟨rfl, rfl⟩

/-- Claim C5: with no override callback, a query whose normalized key was
never registered by any `StubQuery`/`StubQueryError` call makes `Prepare`
fail with the "Query not stubbed" error carrying the original,
non-normalized query text. -/
theorem prepare_unstubbed_error (ops : List StubOp) (q : String)
    (h : ∀ op ∈ ops, getQueryHash op.queryText ≠ getQueryHash q) :
    Conn.prepare (ops.foldl applyStubOp newConn) q
      = ({ result := none, err := none },
         some (.errorString ("Query not stubbed: " ++ q))) := by
  have hqf : (ops.foldl applyStubOp newConn).queryFunc = none :=
    queryFunc_foldl_stubOps ops newConn
  have hlk : mapLookup (getQueryHash q) (ops.foldl applyStubOp newConn).queries
      = none := mapLookup_foldl_stubOps ops newConn _ h
  simp only [Conn.prepare, hqf, hlk]

set_option maxRecDepth 8000 in
theorem prepare_unstubbed_error_witness :
    Conn.prepare
        ([StubOp.failure "SELECT a" (.errorString "boom")].foldl applyStubOp newConn)
        "SELECT b"
      = ({ result := none, err := none },
         some (.errorString ("Query not stubbed: " ++ "SELECT b"))) :=
  prepare_unstubbed_error _ _ (by decide)

/-- Claim C6: with no override callback, after `StubQueryError(q, E)`,
preparing `q` and calling `Query` on the resulting statement returns
exactly the registered error value `E`, unmodified. -/
theorem stub_error_round_trip (c : Conn) (q : String) (E : GoError)
    (args : List Value) (h : c.queryFunc = none) :
    Stmt.query ((Conn.prepare (Conn.stubQueryError c q E) q).1) args
      = (none, some E) := by
  simp [Conn.prepare, h, Conn.stubQueryError, mapLookup_insert_self,
    Stmt.query]

theorem stub_error_round_trip_witness :
    Stmt.query
        ((Conn.prepare (Conn.stubQueryError newConn "q" (.custom 7 "boom")) "q").1) []
      = (none, some (.custom 7 "boom")) :=
  stub_error_round_trip newConn "q" (.custom 7 "boom") [] rfl

/-- Claim C7: two successive registrations for the same query text leave
only the second outcome retrievable (looked up directly and via
`Prepare`); the stored outcome is the second registration's record, in
which exactly one of result/error is populated. -/
theorem registry_last_write_wins (c : Conn) (q : String) (r1 r2 : StubOp)
    (h1 : r1.queryText = q) (h2 : r2.queryText = q) (hf : c.queryFunc = none) :
    mapLookup (getQueryHash q) (applyStubOp (applyStubOp c r1) r2).queries
      = some (stubOutcome r2)
    ∧ Conn.prepare (applyStubOp (applyStubOp c r1) r2) q
      = ({ result := (stubOutcome r2).result, err := (stubOutcome r2).err }, none)
    ∧ ((stubOutcome r2).result = none ∨ (stubOutcome r2).err = none)
    ∧ ¬((stubOutcome r2).result = none ∧ (stubOutcome r2).err = none) := by
  have hl : mapLookup (getQueryHash q)
      (applyStubOp (applyStubOp c r1) r2).queries = some (stubOutcome r2) := by
    rw [queries_applyStubOp, h2, mapLookup_insert_self]
  have hqf : (applyStubOp (applyStubOp c r1) r2).queryFunc = none := by
    rw [queryFunc_applyStubOp, queryFunc_applyStubOp, hf]
  refine ⟨hl, ?_, ?_, ?_⟩
  · simp only [Conn.prepare, hqf, hl]
  · cases r2 <;> simp [stubOutcome]
  · cases r2 <;> simp [stubOutcome]

theorem registry_last_write_wins_witness :
    mapLookup (getQueryHash "a")
        (applyStubOp (applyStubOp newConn (.result "a" ⟨false, [], [], 0⟩))
          (.failure "a" .eof)).queries
      = some (stubOutcome (.failure "a" .eof))
    ∧ Conn.prepare
        (applyStubOp (applyStubOp newConn (.result "a" ⟨false, [], [], 0⟩))
          (.failure "a" .eof)) "a"
      = ({ result := (stubOutcome (.failure "a" .eof)).result,
           err := (stubOutcome (.failure "a" .eof)).err }, none)
    ∧ ((stubOutcome (.failure "a" .eof)).result = none
        ∨ (stubOutcome (.failure "a" .eof)).err = none)
    ∧ ¬((stubOutcome (.failure "a" .eof)).result = none
        ∧ (stubOutcome (.failure "a" .eof)).err = none) :=
  registry_last_write_wins newConn "a" (.result "a" ⟨false, [], [], 0⟩)
    (.failure "a" .eof) rfl rfl rfl

/-- Claim C10: with no override callback, after `StubQueryError(q, E)`,
`Prepare(q)` itself succeeds — it returns a (always non-nil in Go)
statement and a nil error; `E` only surfaces from `Stmt.Query`.  And
`Prepare`'s own error return is non-nil only in the unstubbed case: when
it is non-nil, no callback was set, no registry entry matched, and the
error is the "Query not stubbed" one. -/
theorem stub_error_prepare_succeeds (c : Conn) (q : String) (E : GoError)
    (args : List Value) (h : c.queryFunc = none) :
    (Conn.prepare (Conn.stubQueryError c q E) q).2 = none
    ∧ (Conn.prepare (Conn.stubQueryError c q E) q).1
        = { result := none, err := some E }
    ∧ Stmt.query ((Conn.prepare (Conn.stubQueryError c q E) q).1) args
        = (none, some E)
    ∧ ∀ c' q', (Conn.prepare c' q').2 ≠ none →
        c'.queryFunc = none
        ∧ mapLookup (getQueryHash q') c'.queries = none
        ∧ (Conn.prepare c' q').2
            = some (.errorString ("Query not stubbed: " ++ q')) := by
  refine ⟨?_, ?_, ?_, ?_⟩
  · simp [Conn.prepare, h, Conn.stubQueryError, mapLookup_insert_self]
  · simp [Conn.prepare, h, Conn.stubQueryError, mapLookup_insert_self]
  · simp [Conn.prepare, h, Conn.stubQueryError, mapLookup_insert_self,
      Stmt.query]
  · intro c' q' hne
    rcases hc : c'.queryFunc with _ | f
    · rcases hlk : mapLookup (getQueryHash q') c'.queries with _ | qq
      · simp [Conn.prepare, hc, hlk]
      · simp [Conn.prepare, hc, hlk] at hne
    · simp [Conn.prepare, hc] at hne

set_option maxRecDepth 8000 in
theorem stub_error_prepare_succeeds_witness :
    (Conn.prepare (Conn.stubQueryError newConn "q" .eof) "q").2 = none
    ∧ (Conn.prepare newConn "z").2
        = some (.errorString ("Query not stubbed: " ++ "z")) :=
  ⟨(stub_error_prepare_succeeds newConn "q" .eof [] rfl).1,
   ((stub_error_prepare_succeeds newConn "q" .eof [] rfl).2.2.2 newConn "z"
     (by decide)).2.2⟩

/-! ### Row-source iteration lemmas -/

theorem copyCells_full : ∀ (row dest : List Value),
    row.length = dest.length → copyCells dest row = row := by
  intro row
  induction row with
  | nil => intro dest h; cases dest <;> simp_all [copyCells]
  | cons c cs ih =>
    intro dest h
    cases dest with
    | nil => simp at h
    | cons d ds => simp only [copyCells, List.cons.injEq, true_and]; exact ih ds (by simpa using h)

theorem runNexts_succ_back (n : Nat) :
    ∀ s : Rows × List Value × Option GoError,
      runNexts s (n + 1) = ((runNexts s n).1).next (runNexts s n).2.1 := by
  induction n with
  | zero => intro ⟨rs, dest, e⟩; rfl
  | succ n ih =>
    intro ⟨rs, dest, e⟩
    show runNexts (rs.next dest) (n + 1) = _
    rw [ih (rs.next dest)]
    rfl

theorem getD_row_mem (data : List (List Value)) (i : Nat)
    (h : i < data.length) : data.getD i [] ∈ data := by
  rw [List.getD_eq_getElem data [] h]
  exact List.getElem_mem h

theorem runNexts_open (cols : List String) (data : List (List Value))
    (dest : List Value) (hrows : ∀ r ∈ data, r.length = cols.length)
    (hdest : dest.length = cols.length) :
    ∀ k, k ≤ data.length →
      runNexts (⟨false, cols, data, 0⟩, dest, none) k
        = (⟨false, cols, data, k⟩,
           (if k = 0 then dest else data.getD (k - 1) []), none) := by
  intro k
  induction k with
  | zero => intro _; simp [runNexts]
  | succ k ih =>
    intro hk
    have hklt : k < data.length := Nat.lt_of_succ_le hk
    rw [runNexts_succ_back, ih (Nat.le_of_lt hklt)]
    have hnot : ¬(k + 1 > data.length) := by omega
    have hrow : (data.getD k []).length = cols.length :=
      hrows _ (getD_row_mem data k hklt)
    have hdlen : ((if k = 0 then dest else data.getD (k - 1) [])).length
        = cols.length := by
      by_cases h0 : k = 0
      · simpa [h0] using hdest
      · have h1 : k - 1 < data.length := by omega
        simpa [h0] using hrows _ (getD_row_mem data (k - 1) h1)
    simp only [Rows.next, hnot, if_false, gt_iff_lt, Nat.add_sub_cancel]
    rw [copyCells_full _ _ (hrow.trans hdlen.symm)]
    simp

/-- Claim C2: from a `Rows` source over `N` rows whose cell counts equal
the column count, with a destination buffer of the column count, the
first `N` `Next` calls each succeed (nil error) and copy the row at the
cursor, cell for cell in order, into the destination buffer (call `k+1`
leaves the buffer equal to row `k`, so no row repeats); call `N+1`
returns `io.EOF`, which is a distinct error kind from every string error
and every caller-supplied error. -/
theorem rows_next_iteration (cols : List String) (data : List (List Value))
    (dest : List Value) (hrows : ∀ r ∈ data, r.length = cols.length)
    (hdest : dest.length = cols.length) :
    (∀ k, k < data.length →
      runNexts (⟨false, cols, data, 0⟩, dest, none) (k + 1)
        = (⟨false, cols, data, k + 1⟩, data.getD k [], none))
    ∧ runNexts (⟨false, cols, data, 0⟩, dest, none) (data.length + 1)
        = (⟨true, cols, data, data.length + 1⟩,
           (if data.length = 0 then dest else data.getD (data.length - 1) []),
           some .eof)
    ∧ (∀ m, GoError.eof ≠ GoError.errorString m)
    ∧ (∀ i m, GoError.eof ≠ GoError.custom i m) := by
  refine ⟨?_, ?_, fun m => by simp, fun i m => by simp⟩
  · intro k hk
    have := runNexts_open cols data dest hrows hdest (k + 1) hk
    simpa using this
  · rw [runNexts_succ_back, runNexts_open cols data dest hrows hdest
      data.length (Nat.le_refl _)]
    have : data.length + 1 > data.length := by omega
    simp [Rows.next, this]

theorem rows_next_iteration_witness :
    runNexts (⟨false, ["a"], [[Value.str "x"]], 0⟩, [Value.null], none) 1
      = (⟨false, ["a"], [[Value.str "x"]], 1⟩, [Value.str "x"], none)
    ∧ runNexts (⟨false, ["a"], [[Value.str "x"]], 0⟩, [Value.null], none) 2
      = (⟨true, ["a"], [[Value.str "x"]], 2⟩, [Value.str "x"], some .eof) := by
  have h := rows_next_iteration ["a"] [[Value.str "x"]] [Value.null]
    (by decide) (by decide)
  exact ⟨h.1 0 (by decide), by simpa using h.2.1⟩

theorem pos_le_applyRowsOp (rs : Rows) (op : RowsOp) :
    rs.pos ≤ (applyRowsOp rs op).pos := by
  cases op with
  | nextOp dest =>
    simp only [applyRowsOp, Rows.next]
    split <;> simp
  | columnsOp => exact Nat.le_refl _
  | closeOp => exact Nat.le_refl _
  | errOp => exact Nat.le_refl _

theorem columns_applyRowsOp (rs : Rows) (op : RowsOp) :
    (applyRowsOp rs op).columns = rs.columns := by
  cases op with
  | nextOp dest =>
    simp only [applyRowsOp, Rows.next]
    split <;> rfl
  | columnsOp => rfl
  | closeOp => rfl
  | errOp => rfl

theorem pos_le_foldl_rowsOps (ops : List RowsOp) (rs : Rows) :
    rs.pos ≤ (ops.foldl applyRowsOp rs).pos := by
  induction ops generalizing rs with
  | nil => exact Nat.le_refl _
  | cons op rest ih =>
    exact Nat.le_trans (pos_le_applyRowsOp rs op) (ih (applyRowsOp rs op))

theorem columns_foldl_rowsOps (ops : List RowsOp) (rs : Rows) :
    (ops.foldl applyRowsOp rs).columns = rs.columns := by
  induction ops generalizing rs with
  | nil => rfl
  | cons op rest ih =>
    rw [List.foldl_cons, ih (applyRowsOp rs op), columns_applyRowsOp]

theorem runNexts_exhausted (k : Nat) :
    ∀ (rs : Rows) (dest : List Value) (e : Option GoError),
      rs.rows.length ≤ rs.pos →
      runNexts (rs, dest, e) (k + 1)
        = ({ rs with pos := rs.pos + (k + 1), closed := true }, dest,
           some .eof) := by
  induction k with
  | zero =>
    intro rs dest e h
    have : rs.pos + 1 > rs.rows.length := by omega
    show rs.next dest = _
    simp [Rows.next, this]
  | succ k ih =>
    intro rs dest e h
    have hstep : rs.next dest
        = ({ rs with pos := rs.pos + 1, closed := true }, dest, some .eof) := by
      have : rs.pos + 1 > rs.rows.length := by omega
      simp [Rows.next, this]
    show runNexts (rs.next dest) (k + 1) = _
    rw [hstep, ih { rs with pos := rs.pos + 1, closed := true } dest
      (some .eof) (by simpa using Nat.le_succ_of_le h)]
    have : rs.pos + 1 + (k + 1) = rs.pos + (k + 1 + 1) := by omega
    simp [this]

/-- Claim C8: across any sequence of `Next`/`Columns`/`Close`/`Err`
operations the cursor never decreases and the column list never changes
(`Columns` returns the list fixed at construction in every reachable
state); and once the source is exhausted (cursor at or past the row
count), every further `Next` run — of any length — returns `io.EOF`,
leaves the buffer untouched and keeps the state exhausted with the
closed flag set. -/
theorem rows_cursor_invariant (rs : Rows) (ops : List RowsOp) :
    rs.pos ≤ (ops.foldl applyRowsOp rs).pos
    ∧ (ops.foldl applyRowsOp rs).columns = rs.columns
    ∧ Rows.columnsCall (ops.foldl applyRowsOp rs)
        = (ops.foldl applyRowsOp rs, rs.columns)
    ∧ ∀ (dest : List Value) (e : Option GoError) (k : Nat),
        rs.rows.length ≤ rs.pos →
        runNexts (rs, dest, e) (k + 1)
          = ({ rs with pos := rs.pos + (k + 1), closed := true }, dest,
             some .eof)
        ∧ rs.rows.length ≤ rs.pos + (k + 1) := by
  refine ⟨pos_le_foldl_rowsOps ops rs, columns_foldl_rowsOps ops rs, ?_, ?_⟩
  · simp [Rows.columnsCall, columns_foldl_rowsOps ops rs]
  · intro dest e k h
    exact ⟨runNexts_exhausted k rs dest e h, by omega⟩

theorem rows_cursor_invariant_witness :
    (3 : Nat) ≤ (([.columnsOp, .nextOp [], .closeOp] : List RowsOp).foldl
        applyRowsOp ⟨true, ["c"], [], 3⟩).pos
    ∧ (([.columnsOp, .nextOp [], .closeOp] : List RowsOp).foldl
        applyRowsOp ⟨true, ["c"], [], 3⟩).columns = ["c"]
    ∧ runNexts (⟨true, ["c"], [], 3⟩, [], none) 2
        = (⟨true, ["c"], [], 5⟩, [], some .eof) := by
  have h := rows_cursor_invariant ⟨true, ["c"], [], 3⟩
    [.columnsOp, .nextOp [], .closeOp]
  refine ⟨h.1, h.2.1, ?_⟩
  have h2 := (h.2.2.2 [] none 1 (by decide)).1
  simpa using h2

/-! ### Query-normalization lemmas -/

theorem toNat_ofNat_valid (n : Nat) (h : n.isValidChar) :
    (Char.ofNat n).toNat = n := by
  simp only [Char.ofNat, dif_pos h]
  simp [Char.ofNatAux, Char.toNat, UInt32.toNat, BitVec.toNat_ofNatLt]

theorem toNat_goToLower (c : Char) :
    (goToLower c).toNat
      = if 65 ≤ c.toNat ∧ c.toNat ≤ 90 then c.toNat + 32 else c.toNat := by
  unfold goToLower
  split
  · next h => rw [toNat_ofNat_valid _ (by left; omega)]
  · rfl

theorem eq_of_toNat_eq {c d : Char} (h : c.toNat = d.toNat) : c = d :=
  Char.ext (UInt32.ext h)

theorem char_eq_iff_toNat (c d : Char) : c = d ↔ c.toNat = d.toNat :=
  ⟨fun h => h ▸ rfl, eq_of_toNat_eq⟩

theorem goToLower_idem (c : Char) : goToLower (goToLower c) = goToLower c := by
  have h := toNat_goToLower c
  unfold goToLower
  by_cases hc : 65 ≤ c.toNat ∧ c.toNat ≤ 90
  · rw [if_pos hc] at h ⊢
    rw [if_neg (by rw [toNat_ofNat_valid _ (by left; omega)]; omega)]
  · rw [if_neg hc] at h ⊢
    rw [if_neg hc]

theorem isGoRegexpSpace_iff (c : Char) :
    isGoRegexpSpace c = true ↔
      (c.toNat = 9 ∨ c.toNat = 10 ∨ c.toNat = 12 ∨ c.toNat = 13 ∨
       c.toNat = 32) := by
  unfold isGoRegexpSpace
  simp only [Bool.or_eq_true, beq_iff_eq]
  rw [char_eq_iff_toNat, char_eq_iff_toNat, char_eq_iff_toNat,
    char_eq_iff_toNat, char_eq_iff_toNat]
  norm_num [toNat_ofNat_valid 12 (by left; omega)]
  simp only [show ('\t').toNat = 9 from rfl, show ('\n').toNat = 10 from rfl,
    show ('\x0d').toNat = 13 from rfl, show (' ').toNat = 32 from rfl]
  tauto

theorem ws_goToLower (c : Char) :
    isGoRegexpSpace (goToLower c) = isGoRegexpSpace c := by
  have h := toNat_goToLower c
  apply Bool.coe_iff_coe.mp
  rw [isGoRegexpSpace_iff, isGoRegexpSpace_iff]
  by_cases hc : 65 ≤ c.toNat ∧ c.toNat ≤ 90
  · rw [if_pos hc] at h
    omega
  · rw [if_neg hc] at h
    omega

theorem str_ext {s t : String} (h : s.data = t.data) : s = t := by
  cases s
  cases t
  exact congrArg String.mk h

theorem wsCaseVariant_canon {l l' : List Char} (h : WsCaseVariant l l') :
    (l.filter (fun c => !isGoRegexpSpace c)).map goToLower
      = (l'.filter (fun c => !isGoRegexpSpace c)).map goToLower := by
  induction h with
  | nil => rfl
  | @cons c c' l l' hc h ih =>
    have hws : isGoRegexpSpace c = isGoRegexpSpace c' := by
      rw [← ws_goToLower c, ← ws_goToLower c', hc]
    by_cases hw : isGoRegexpSpace c = true
    · simp only [List.filter_cons, hw, hws.symm.trans hw]
      simpa using ih
    · have hw' : isGoRegexpSpace c' = false := by
        rw [← hws]; exact Bool.not_eq_true _ |>.mp hw
      simp only [List.filter_cons, Bool.not_eq_true _ |>.mp hw, hw',
        Bool.not_false, if_pos, List.map_cons, hc, ih]
  | @dropWs c l l' hw h ih =>
    simpa [List.filter_cons, hw] using ih
  | @insWs c l l' hw h ih =>
    simpa [List.filter_cons, hw] using ih

theorem normalizeQuery_data (s : String) :
    (normalizeQuery s).data
      = (s.data.filter (fun c => !isGoRegexpSpace c)).map goToLower := rfl

theorem wsCaseVariant_self_normalize (l : List Char) :
    WsCaseVariant l ((l.filter (fun c => !isGoRegexpSpace c)).map goToLower) := by
  induction l with
  | nil => exact .nil
  | cons c l ih =>
    by_cases hw : isGoRegexpSpace c = true
    · simpa [List.filter_cons, hw] using WsCaseVariant.dropWs hw ih
    · have : isGoRegexpSpace c = false := Bool.not_eq_true _ |>.mp hw
      simpa [List.filter_cons, this] using
        WsCaseVariant.cons (goToLower_idem c).symm ih

/-- Claim C3: the query key is insensitive to normalization, whitespace
and letter case: hashing the normalized form of `q` gives the same key as
hashing `q`, and hashing any string obtained from `q` by inserting or
removing `\s` characters anywhere and/or changing letter case gives the
same key as hashing `q`. -/
theorem query_hash_normalization (q : String) :
    getQueryHash (normalizeQuery q) = getQueryHash q
    ∧ ∀ q' : String, WsCaseVariant q.data q'.data →
        getQueryHash q' = getQueryHash q := by
  have key : ∀ q' : String, WsCaseVariant q.data q'.data →
      getQueryHash q' = getQueryHash q := by
    intro q' h
    have hdata : (normalizeQuery q').data = (normalizeQuery q).data := by
      rw [normalizeQuery_data, normalizeQuery_data]
      exact (wsCaseVariant_canon h).symm
    unfold getQueryHash
    rw [str_ext hdata]
  refine ⟨?_, key⟩
  exact key (normalizeQuery q)
    (by rw [normalizeQuery_data]; exact wsCaseVariant_self_normalize q.data)

theorem query_hash_normalization_witness :
    getQueryHash (normalizeQuery "A b") = getQueryHash "A b"
    ∧ getQueryHash "ab" = getQueryHash "A b" :=
  ⟨(query_hash_normalization "A b").1,
   (query_hash_normalization "A b").2 "ab"
     (.cons (by decide) (.dropWs (by decide) (.cons rfl .nil)))⟩

/-! ### CSV conversion claims -/

theorem rowsLoop_eq_readRecords (cols : List String) :
    ∀ (fuel : Nat) (st : CSVState) (acc : List (List Value)),
      rowsLoop cols fuel st acc
        = acc ++ ((readRecords fuel st).1).map (buildRow cols) := by
  intro fuel
  induction fuel with
  | zero => intro st acc; simp [rowsLoop, readRecords]
  | succ fuel ih =>
    intro st acc
    rcases h : csvRead st with e | ⟨r, st'⟩
    · simp [rowsLoop, readRecords, h]
    · simp [rowsLoop, readRecords, h, ih]

theorem rowsLoopChecked_eq (cols : List String) :
    ∀ (fuel : Nat) (st : CSVState) (acc : List (List Value)),
      (∀ r ∈ (readRecords fuel st).1, r.length ≤ cols.length) →
      rowsLoopChecked cols fuel st acc = some (rowsLoop cols fuel st acc) := by
  intro fuel
  induction fuel with
  | zero => intro st acc h; rfl
  | succ fuel ih =>
    intro st acc h
    rcases hr : csvRead st with e | ⟨r, st'⟩
    · simp [rowsLoopChecked, rowsLoop, hr]
    · have hmem : r ∈ (readRecords (fuel + 1) st).1 := by
        simp [readRecords, hr]
      have hb : buildRowChecked cols r = some (buildRow cols r) := by
        simp [buildRowChecked, h r hmem]
      have htail : ∀ r' ∈ (readRecords fuel st').1, r'.length ≤ cols.length := by
        intro r' hr'
        exact h r' (by simp [readRecords, hr, hr'])
      simp [rowsLoopChecked, rowsLoop, hr, hb, ih st' _ htail]

/-- Claim C9 as frozen is false on the code: with columns `["a"]` and
input "x,y\nz" the scanner parses `["x","y"]` and then hits the
field-count parse error, so the claim demands a row source holding that
one converted record; but the conversion loop panics at `row[1] = v`
(index out of range, testdb.go:209-211) before any row source can be
returned — the panic modeled by `none`. -/
theorem csv_oversized_record_panic :
    readRecords 6 ⟨("x,y\nz").data, none⟩ = ([["x", "y"]], some .fieldCount)
    ∧ RowsFromCSVStringChecked ["a"] "x,y\nz" = none := by
  refine ⟨by decide, by decide⟩

/-- Claim C9, as amended: for every column list and input text whose
successfully parsed records all fit within the declared columns (wider
records make the Go conversion loop panic instead of returning; the spec
leaves mismatched cell counts undefined), `RowsFromCSVString` returns —
`RowsFromCSVStringChecked` is `some` of it — and its rows are exactly the
conversions of the records the CSV scanner parses before its first error
(or end of input), with no error surfaced (the return type carries no
error channel).  Concretely, on "x,y\nz\nw,v" the scanner yields
`["x","y"]` and then a field-count parse error, and `RowsFromCSVString`
returns exactly the one row before the error. -/
theorem csv_lenient_truncation (cols : List String) (s : String)
    (h : ∀ r ∈ (readRecords ((goTrimSpace s).data.length + 1)
        ⟨(goTrimSpace s).data, none⟩).1, r.length ≤ cols.length) :
    RowsFromCSVStringChecked cols s = some (RowsFromCSVString cols s)
    ∧ (RowsFromCSVString cols s).rows
        = ((readRecords ((goTrimSpace s).data.length + 1)
            ⟨(goTrimSpace s).data, none⟩).1).map (buildRow cols)
    ∧ readRecords 10 ⟨("x,y\nz\nw,v").data, none⟩
        = ([["x", "y"]], some .fieldCount)
    ∧ (RowsFromCSVString ["a", "b"] "x,y\nz\nw,v").rows
        = [[Value.str "x", Value.str "y"]] := by
  refine ⟨?_, ?_, by decide, by decide⟩
  · simp only [RowsFromCSVStringChecked, RowsFromCSVString,
      rowsLoopChecked_eq cols _ _ _ h]
    rfl
  · simp [RowsFromCSVString, rowsLoop_eq_readRecords]

theorem csv_lenient_truncation_witness :
    RowsFromCSVStringChecked ["a", "b"] "x,y\nz\nw,v"
      = some (RowsFromCSVString ["a", "b"] "x,y\nz\nw,v")
    ∧ (RowsFromCSVString ["a", "b"] "x,y\nz\nw,v").rows
      = [[Value.str "x", Value.str "y"]] :=
  ⟨(csv_lenient_truncation ["a", "b"] "x,y\nz\nw,v" (by decide)).1,
   (csv_lenient_truncation ["a", "b"] "x,y\nz\nw,v" (by decide)).2.2.2⟩

/-- Claim C1, settled against the code: the full date-time example works
as claimed — `["name","created_at"]` with "alice, 2023-01-02 03:04:05"
yields the text "alice" and the timestamp 2023-01-02 03:04:05 — but the
claim's date-only half is false in the code: "2023-01-02" matches
`timeRegex`, yet `time.Parse("2006-01-02 15:04:05", "2023-01-02")` fails
(the layout demands the time part), the error is discarded at
testdb.go:208, and the stored cell is the zero time 0001-01-01 00:00:00,
not January 2, 2023. -/
theorem csv_dateonly_zero_time :
    (RowsFromCSVString ["name", "created_at"] "alice, 2023-01-02 03:04:05").rows
      = [[Value.str "alice", Value.time ⟨2023, 1, 2, 3, 4, 5⟩]]
    ∧ matchesTimeRegex ("2023-01-02").data = true
    ∧ goTimeParse ("2023-01-02").data = none
    ∧ (RowsFromCSVString ["created_at"] "2023-01-02").rows
      = [[Value.time zeroTime]]
    ∧ zeroTime ≠ (⟨2023, 1, 2, 0, 0, 0⟩ : GoTime) := by
  refine ⟨by decide, by decide, by decide, by decide, by decide⟩

end Testdb
